import Mathlib

/-!
Shallow embedding of the Snake game sources (`settings.py`, `game_objects.py`,
`main.py`).  Pixel coordinates are modelled as `Int`, directions and speeds as
`Nat`, and elapsed time as `ℚ` (Python `float` arithmetic here is only
addition and comparison of small decimals).  Mutation is modelled by explicit
state passing; Python code that can raise is modelled with `Option`.
-/

/-! ### settings.py -/

def WINDOW_WIDTH : Int := 480

def WINDOW_HEIGHT : Int := 360

def GLOBAL_FPS : Nat := 60

def GRID_SIZE : Int := 10

def SNAKE_SPEED : Nat := 20

def SNAKE_INIT_LENGTH : Nat := 0

def SNAKE_INIT_X : Int := WINDOW_WIDTH / 5 / GRID_SIZE * GRID_SIZE

def SNAKE_INIT_Y : Int := WINDOW_HEIGHT / 2 / GRID_SIZE * GRID_SIZE

/-- `pygame.K_LEFT` key code. -/
def K_LEFT : Nat := 1073741904

/-- `pygame.K_RIGHT` key code. -/
def K_RIGHT : Nat := 1073741903

/-- `pygame.K_UP` key code. -/
def K_UP : Nat := 1073741906

/-- `pygame.K_DOWN` key code. -/
def K_DOWN : Nat := 1073741905

/-! ### game_objects.py : GameObject -/

/-- `pygame.Rect`: integer rectangle with position and size. -/
structure Rect where
  x : Int
  y : Int
  w : Int
  h : Int
deriving DecidableEq, Repr

/-- Variants of snake parts; they differ only in their drawn shape. -/
inductive PartKind where
  | head
  | body
  | tail
deriving DecidableEq, Repr

/-- A `GameObject` as used for snake parts: `bounds`, `color`, `offset`,
`speed`, `direction`, `step_size` (the draw method is pure rendering and is
not modelled). -/
structure SnakePart where
  kind : PartKind
  bounds : Rect
  color : Nat × Nat × Nat
  offset : Int × Int
  speed : Nat
  direction : Nat
  step_size : Int
deriving DecidableEq, Repr

/-- `GameObject.get_velocity(direction, speed, step_size)`.
`dx = round(direction % 2 * (-1) ** ((direction % 3) == 0) * step_size)`,
`dy = round((direction + 1) % 2 * (-1) ** ((direction % 3) == 0) * step_size)`;
`round` is the identity on integers, and the Python bool exponent makes the
sign `-1` exactly when `direction % 3 == 0`.  The `speed` argument is unused,
as in the source. -/
def get_velocity (direction : Nat) (speed : Nat) (step_size : Int) : Int × Int :=
  let sign : Int := if direction % 3 = 0 then -1 else 1
  ((direction % 2 : Nat) * sign * step_size,
   ((direction + 1) % 2 : Nat) * sign * step_size)

/-- `Rect.move(dx, dy)`. -/
def Rect.moveBy (r : Rect) (dx dy : Int) : Rect :=
  { r with x := r.x + dx, y := r.y + dy }

/-- `GameObject.move(dx, dy)`: translate the bounding box. -/
def movePart (p : SnakePart) (dx dy : Int) : SnakePart :=
  { p with bounds := p.bounds.moveBy dx dy }

/-- `GameObject.update(dt)`: if `speed != 0`, move by
`get_velocity(direction, speed)` — note the source does not pass
`self.step_size`, so the default `stg.GRID_SIZE` is used.  `dt` is unused, as
in the source. -/
def updatePart (p : SnakePart) (dt : ℚ) : SnakePart :=
  if p.speed ≠ 0 then
    let velocity := get_velocity p.direction p.speed GRID_SIZE
    movePart p velocity.1 velocity.2
  else p

/-- `GameObject.left` property. -/
def SnakePart.left (p : SnakePart) : Int := p.bounds.x

/-- `GameObject.right` property (`pygame.Rect.right = x + w`). -/
def SnakePart.right (p : SnakePart) : Int := p.bounds.x + p.bounds.w

/-- `GameObject.top` property. -/
def SnakePart.top (p : SnakePart) : Int := p.bounds.y

/-- `GameObject.bottom` property (`pygame.Rect.bottom = y + h`). -/
def SnakePart.bottom (p : SnakePart) : Int := p.bounds.y + p.bounds.h

/-- `pygame.Rect.colliderect`: true when the rectangles strictly overlap
(touching edges do not count as a collision). -/
def collideRect (a b : Rect) : Bool :=
  decide (a.x + a.w > b.x ∧ a.x < b.x + b.w ∧ a.y + a.h > b.y ∧ a.y < b.y + b.h)

/-- The position-and-direction data a trailing part inherits from its
predecessor during `Snake.move`. -/
def posdir (p : SnakePart) : Int × Int × Nat := (p.bounds.x, p.bounds.y, p.direction)

/-! ### game_objects.py : Apple -/

/-- The `Apple` game object: a `GameObject` with default size `GRID_SIZE`,
`speed = 0`, `direction = 2`, plus a `lifespan`. -/
structure Apple where
  bounds : Rect
  color : Nat × Nat × Nat
  offset : Int × Int
  speed : Nat
  direction : Nat
  step_size : Int
  lifespan : Nat
deriving DecidableEq, Repr

/-- `Apple.__init__(x, y, offset)` with the default color and lifespan. -/
def mkApple (x y : Int) (offset : Int × Int) : Apple :=
  { bounds := { x := x, y := y, w := GRID_SIZE, h := GRID_SIZE },
    color := (255, 255, 255), offset := offset, speed := 0, direction := 2,
    step_size := GRID_SIZE, lifespan := 9999 }

/-- `Apple.respawn()`:
`bounds.x = randrange(0, offset[0] - width)`;
`bounds.y = randrange(0, offset[1] - height)`.
The two random draws are passed in as `rx`, `ry`; `randrange(0, n)` (with its
default step 1) can return any integer in `[0, n)`. -/
def Apple.respawn (a : Apple) (rx ry : Int) : Apple :=
  { a with bounds := { a.bounds with x := rx, y := ry } }

/-- Range constraint guaranteed for draws of `randrange(0, n)`. -/
def validDraw (r n : Int) : Prop := 0 ≤ r ∧ r < n

/-! ### game_objects.py : SnakeHead.handle -/

/-- `SnakeHead.DIRECTIONS` dict: `{K_UP: 0, K_RIGHT: 1, K_DOWN: 2, K_LEFT: 3}`.
Lookup of an unbound key would raise a `KeyError` in Python; the guard in
`handle` only dereferences bound keys, so the final branch is unreachable
there. -/
def DIRECTIONS (key : Nat) : Nat :=
  if key = K_UP then 0
  else if key = K_RIGHT then 1
  else if key = K_DOWN then 2
  else if key = K_LEFT then 3
  else 0

/-- `SnakeHead.handle(key)` acting on the current direction:
`if key in (LEFT, RIGHT) and direction % 2 != 1
    or key in (UP, DOWN) and direction % 2 != 0:
  direction = DIRECTIONS[key]`
(`and` binds tighter than `or` in Python). -/
def snakeHandle (key : Nat) (direction : Nat) : Nat :=
  if ((key = K_LEFT ∨ key = K_RIGHT) ∧ direction % 2 ≠ 1)
      ∨ ((key = K_UP ∨ key = K_DOWN) ∧ direction % 2 ≠ 0) then
    DIRECTIONS key
  else direction

/-! ### game_objects.py : Snake -/

/-- The `Snake` aggregate: ordered list of parts (index 0 = head), plus
`color`, `offset`, `speed`, the accumulated `time`, and the `got_apple`
flag. -/
structure Snake where
  parts : List SnakePart
  color : Nat × Nat × Nat
  offset : Int × Int
  speed : Nat
  time : ℚ
  got_apple : Bool
deriving DecidableEq, Repr

/-- `SnakePart.__init__` as invoked from `Snake.__init__`: width, height and
step size take the default `GRID_SIZE`. -/
def mkSnakePart (kind : PartKind) (x y : Int) (color : Nat × Nat × Nat)
    (speed : Nat) (direction : Nat) (offset : Int × Int) : SnakePart :=
  { kind := kind,
    bounds := { x := x, y := y, w := GRID_SIZE, h := GRID_SIZE },
    color := color, offset := offset, speed := speed, direction := direction,
    step_size := GRID_SIZE }

/-- `Snake.head` property: `parts[0]` (Python would raise on an empty list;
a constructed snake always has at least head and tail). -/
def headSpeed (s : Snake) : Nat :=
  match s.parts with
  | [] => 0
  | p :: _ => p.speed

/-- `Snake.__init__(x, y, color, offset, speed, direction, length)`:
head and tail at `(x, y)`, `length` body parts inserted at index 1 (all at
`(x, y)`), then every part of index `i ≥ 1` is moved by `-velocity * i` where
`velocity = get_velocity(direction, speed)` (default step `GRID_SIZE`). -/
def mkSnake (x y : Int) (color : Nat × Nat × Nat) (offset : Int × Int)
    (speed : Nat) (direction : Nat) (length : Nat) : Snake :=
  let parts0 : List SnakePart :=
    mkSnakePart PartKind.head x y color speed direction offset
      :: (List.replicate length (mkSnakePart PartKind.body x y color speed direction offset)
          ++ [mkSnakePart PartKind.tail x y color speed direction offset])
  let velocity := get_velocity direction speed GRID_SIZE
  let parts := parts0.mapIdx fun i p =>
    if i = 0 then p
    else movePart p (-(velocity.1 * (i : Int))) (-(velocity.2 * (i : Int)))
  { parts := parts, color := color, offset := offset, speed := speed,
    time := 0, got_apple := false }

/-- The trailing loop of `Snake.move`: each part takes the carried
`(tmp_x, tmp_y, tmp_direction)` and passes its own previous values on to the
next part (the Python pairwise swap reads the right-hand sides before
assigning). -/
def shiftFollow (tx ty : Int) (td : Nat) : List SnakePart → List SnakePart
  | [] => []
  | p :: rest =>
      { p with bounds := { p.bounds with x := tx, y := ty }, direction := td }
        :: shiftFollow p.bounds.x p.bounds.y p.direction rest

/-- `Snake.move(dt)` on the parts list: remember the head's position and
direction, advance the head via `update(dt)`, then propagate the remembered
values backward through the chain. -/
def moveParts (ps : List SnakePart) (dt : ℚ) : List SnakePart :=
  match ps with
  | [] => []
  | hd :: rest => updatePart hd dt :: shiftFollow hd.bounds.x hd.bounds.y hd.direction rest

/-- `Snake.move(dt)`. -/
def Snake.move (s : Snake) (dt : ℚ) : Snake :=
  { s with parts := moveParts s.parts dt }

/-- `Snake.grow(dt)`: build a `SnakeBody` at the head's current position and
direction (with the snake's color and offset and the head's speed), insert it
at index 1, then advance the head via `update(dt)`. -/
def Snake.grow (s : Snake) (dt : ℚ) : Snake :=
  match s.parts with
  | [] => s
  | hd :: rest =>
      let body := mkSnakePart PartKind.body hd.bounds.x hd.bounds.y s.color
        hd.speed hd.direction s.offset
      { s with parts := updatePart hd dt :: body :: rest }

/-- `Snake.update(dt)`: when the accumulated `time` exceeds `1 / head.speed`,
perform one `grow` (consuming `got_apple`) or `move` step and reset the
accumulator; otherwise just accumulate `dt`.  The Python division
`1 / self.head.speed` raises `ZeroDivisionError` when the speed is 0; that
case is modelled separately by `snakeUpdateChecked`. -/
def Snake.update (s : Snake) (dt : ℚ) : Snake :=
  if s.time > 1 / (headSpeed s : ℚ) then
    if s.got_apple then { s.grow dt with got_apple := false, time := 0 }
    else { s.move dt with time := 0 }
  else { s with time := s.time + dt }

/-- `Snake.update(dt)` with Python's possible `ZeroDivisionError` made
explicit: `1 / self.head.speed` raises when the head's speed is 0, modelled
as `none`. -/
def snakeUpdateChecked (s : Snake) (dt : ℚ) : Option Snake :=
  if headSpeed s = 0 then none else some (s.update dt)

/-- `Snake.check_collision()`: wall test on the head's box against
`[0, offset[0]] × [0, offset[1]]`, then overlap of the head's box with each
part of index ≥ 1. -/
def Snake.check_collision (s : Snake) : Bool :=
  match s.parts with
  | [] => false
  | hd :: rest =>
      if hd.left < 0 ∨ hd.right > s.offset.1 ∨ hd.top < 0 ∨ hd.bottom > s.offset.2 then
        true
      else
        rest.any fun part => collideRect hd.bounds part.bounds

/-- `Snake.colliderect(rect)`: true when any part overlaps the given box. -/
def Snake.colliderect (s : Snake) (r : Rect) : Bool :=
  s.parts.any fun part => collideRect part.bounds r

/-! ### main.py : Game.handle_events -/

/-- A queued pygame event, as examined by `Game.handle_events`: `QUIT`,
`KEYDOWN` (with its key code), or anything else. -/
inductive PgEvent where
  | quit
  | keydown : Nat → PgEvent
  | other
deriving DecidableEq, Repr

/-- `event.key in stg.KEYS.values()`. -/
def isBoundKeydown : PgEvent → Bool
  | PgEvent.keydown k => decide (k = K_LEFT ∨ k = K_RIGHT ∨ k = K_UP ∨ k = K_DOWN)
  | _ => false

/-- The key carried by a `KEYDOWN` event (0 for the other variants). -/
def eventKey : PgEvent → Nat
  | PgEvent.keydown k => k
  | _ => 0

/-- `Game.handle_events()` over the queued events: on `QUIT` the process
exits (first component `true`); on the first `KEYDOWN` whose key is bound,
the handlers for that key run (second component collects the keys passed to
handlers), the remaining queue is cleared (`pygame.event.clear()`) and the
loop breaks; all other events are skipped. -/
def handleEvents : List PgEvent → Bool × List Nat
  | [] => (false, [])
  | PgEvent.quit :: _ => (true, [])
  | PgEvent.keydown k :: es =>
      if k = K_LEFT ∨ k = K_RIGHT ∨ k = K_UP ∨ k = K_DOWN then (false, [k])
      else handleEvents es
  | PgEvent.other :: es => handleEvents es

/-! ### Head direction traces (for the no-reversal invariant)

Between two cadence steps of `Snake.move`, any number of frames elapse, and
each frame dispatches at most one accepted `handle` call, so a trace of the
head's direction interleaves `press` events (a `SnakeHead.handle` call) with
`tick` events (a `Snake.move` step using the current direction). -/

inductive SnakeEv where
  | press : Nat → SnakeEv
  | tick
deriving DecidableEq, Repr

/-- The opposite of a direction. -/
def opposite (d : Nat) : Nat := (d + 2) % 4

/-- Reversal check against the heading of the last `tick` (none before the
first tick). -/
def checkRev : Option Nat → Nat → Bool
  | none, _ => true
  | some m, d => decide (d ≠ opposite m)

/-- Runs a trace of head events, checking after every `press` that the
direction has not become the opposite of the heading the head last moved
with.  `lm` is the direction at the most recent `tick`. -/
def noRev : Option Nat → Nat → List SnakeEv → Bool
  | _, _, [] => true
  | _, d, SnakeEv.tick :: es => noRev (some d) d es
  | lm, d, SnakeEv.press k :: es =>
      checkRev lm (snakeHandle k d) && noRev lm (snakeHandle k d) es

/-- Holds when a trace performs at most one `press` between consecutive
`tick` events (`c` counts presses since the last tick). -/
def gapOk : Nat → List SnakeEv → Bool
  | _, [] => true
  | _, SnakeEv.tick :: es => gapOk 0 es
  | c, SnakeEv.press _ :: es => decide (c = 0) && gapOk (c + 1) es

/-- The snake constructed in `SnakeGame.__init__` with the values of
`settings.py` (color `RGB['SNAKE']`, default direction 1). -/
def initialSnake : Snake :=
  mkSnake SNAKE_INIT_X SNAKE_INIT_Y (0, 165, 80) (WINDOW_WIDTH, WINDOW_HEIGHT)
    SNAKE_SPEED 1 SNAKE_INIT_LENGTH

/-! ## Theorems -/

theorem snakeHandle_lt (k d : Nat) (hd : d < 4) : snakeHandle k d < 4 := by
  unfold snakeHandle
  split_ifs with h
  · rcases h with ⟨hk, -⟩ | ⟨hk, -⟩ <;> rcases hk with rfl | rfl <;> decide
  · exact hd

theorem self_ne_opposite (d : Nat) (hd : d < 4) : d ≠ opposite d := by
  interval_cases d <;> decide

theorem snakeHandle_ne_opposite (k d : Nat) (hd : d < 4) :
    snakeHandle k d ≠ opposite d := by
  unfold snakeHandle
  split_ifs with h
  · rcases h with ⟨hk, hp⟩ | ⟨hk, hp⟩ <;> rcases hk with rfl | rfl <;>
      interval_cases d <;> revert hp <;> decide
  · exact self_ne_opposite d hd

theorem noRev_aux : ∀ (es : List SnakeEv) (lm : Option Nat) (d c : Nat),
    d < 4 →
    (∀ m, lm = some m → m < 4 ∧ d ≠ opposite m ∧ (c = 0 → d = m)) →
    gapOk c es = true → noRev lm d es = true := by
  intro es
  induction es with
  | nil => intro lm d c _ _ _; rfl
  | cons e es ih =>
    intro lm d c hd hinv hgap
    cases e with
    | tick =>
      show noRev (some d) d es = true
      refine ih (some d) d 0 hd ?_ hgap
      intro m hm
      injection hm with hm
      subst hm
      exact ⟨hd, self_ne_opposite d hd, fun _ => rfl⟩
    | press k =>
      have hgap2 : (decide (c = 0) && gapOk (c + 1) es) = true := hgap
      rw [Bool.and_eq_true, decide_eq_true_eq] at hgap2
      obtain ⟨hc, hgap3⟩ := hgap2
      show (checkRev lm (snakeHandle k d) && noRev lm (snakeHandle k d) es) = true
      rw [Bool.and_eq_true]
      cases lm with
      | none =>
        refine ⟨rfl, ih none (snakeHandle k d) (c + 1) (snakeHandle_lt k d hd) ?_ hgap3⟩
        intro m hm
        cases hm
      | some m =>
        obtain ⟨hm4, hne, heq⟩ := hinv m rfl
        have hdm : d = m := heq hc
        subst hdm
        have h2 := snakeHandle_ne_opposite k d hd
        refine ⟨by simp [checkRev, h2], ih (some d) (snakeHandle k d) (c + 1)
          (snakeHandle_lt k d hd) ?_ hgap3⟩
        intro m2 hm2
        injection hm2 with hm2
        subst hm2
        exact ⟨hd, h2, fun hcc => absurd hcc (Nat.succ_ne_zero c)⟩

/-- C7: `get_velocity` maps UP to `(0, -m)`, RIGHT to `(m, 0)`, DOWN to
`(0, m)` and LEFT to `(-m, 0)` for every magnitude `m` and every `speed`,
and its result does not depend on the `speed` argument at all. -/
theorem get_velocity_spec :
    (∀ (speed : Nat) (m : Int),
      get_velocity 0 speed m = (0, -m) ∧
      get_velocity 1 speed m = (m, 0) ∧
      get_velocity 2 speed m = (0, m) ∧
      get_velocity 3 speed m = (-m, 0)) ∧
    (∀ (d s1 s2 : Nat) (m : Int), get_velocity d s1 m = get_velocity d s2 m) := by
  constructor
  · intro speed m
    refine ⟨?_, ?_, ?_, ?_⟩ <;> simp [get_velocity]
  · intro d s1 s2 m
    rfl

/-- C4: for a current direction `d < 4` and any bound direction key,
`SnakeHead.handle` sets the direction bound to the key exactly when that
direction is perpendicular to `d` (their parities differ), and otherwise
leaves the direction unchanged; in particular RIGHT ignores a LEFT request
and accepts an UP request. -/
theorem snake_handle_perpendicular (d : Nat) (hd : d < 4) :
    (∀ k, (k = K_LEFT ∨ k = K_RIGHT ∨ k = K_UP ∨ k = K_DOWN) →
      snakeHandle k d = if DIRECTIONS k % 2 ≠ d % 2 then DIRECTIONS k else d) ∧
    snakeHandle K_LEFT 1 = 1 ∧ snakeHandle K_UP 1 = 0 := by
  refine ⟨?_, by decide, by decide⟩
  intro k hk
  rcases hk with rfl | rfl | rfl | rfl <;> interval_cases d <;> decide

theorem snake_handle_perpendicular_check :
    snakeHandle K_UP 1 = 0 ∧ snakeHandle K_DOWN 1 = 2 ∧ snakeHandle K_LEFT 1 = 1 := by
  have h := snake_handle_perpendicular 1 (by decide)
  have h2 := h.1 K_DOWN (by decide)
  exact ⟨h.2.2, by rw [h2]; decide, h.2.1⟩

/-- C5 counterexample: starting from heading RIGHT at a move step, the two
accepted handle updates UP then LEFT — reachable because several frames (one
key dispatch each) elapse between cadence steps — leave the head pointing
LEFT, the opposite of the heading it last moved with, so the claimed
invariant fails on this reachable event sequence. -/
theorem head_reversal_two_presses :
    noRev none 1 [SnakeEv.tick, SnakeEv.press K_UP, SnakeEv.press K_LEFT] = false ∧
    snakeHandle K_UP 1 = 0 ∧ snakeHandle K_LEFT 0 = 3 ∧ opposite 1 = 3 := by
  decide

/-- C5 amended: a single accepted `handle` update always yields a direction
perpendicular — never opposite — to the current one, so as long as at most
one handle update happens between consecutive move steps, the head's
direction never becomes the opposite of the heading it moved with at the
previous step; reversal requires at least two handle updates in one gap. -/
theorem head_no_reversal_single_press (d : Nat) (es : List SnakeEv) (hd : d < 4)
    (hgap : gapOk 0 es = true) : noRev none d es = true :=
  noRev_aux es none d 0 hd (fun m hm => by cases hm) hgap

theorem head_no_reversal_single_press_check :
    gapOk 0 [SnakeEv.tick, SnakeEv.press K_UP, SnakeEv.tick, SnakeEv.press K_LEFT] = true ∧
    noRev none 1 [SnakeEv.tick, SnakeEv.press K_UP, SnakeEv.tick, SnakeEv.press K_LEFT] = true :=
  ⟨by decide, head_no_reversal_single_press 1
    [SnakeEv.tick, SnakeEv.press K_UP, SnakeEv.tick, SnakeEv.press K_LEFT]
    (by decide) (by decide)⟩

theorem shiftFollow_length : ∀ (l : List SnakePart) (tx ty : Int) (td : Nat),
    (shiftFollow tx ty td l).length = l.length := by
  intro l
  induction l with
  | nil => intro tx ty td; rfl
  | cons p rest ih => intro tx ty td; simp [shiftFollow, ih]

theorem shiftFollow_get_succ : ∀ (l : List SnakePart) (tx ty : Int) (td : Nat) (i : Nat),
    i + 1 < l.length →
    ((shiftFollow tx ty td l)[i + 1]?).map posdir = (l[i]?).map posdir := by
  intro l
  induction l with
  | nil => intro tx ty td i h; simp at h
  | cons p rest ih =>
    intro tx ty td i h
    cases i with
    | zero =>
      cases rest with
      | nil => simp at h
      | cons q rest2 => simp [shiftFollow, posdir]
    | succ j =>
      have hj : j + 1 < rest.length := by simpa using h
      have := ih p.bounds.x p.bounds.y p.direction j hj
      simpa [shiftFollow] using this

/-- C1: one call to `Snake.move` keeps the number of parts, advances the head
by exactly one step of `get_velocity(direction, speed)` — `step_size` pixels
along its current direction, since snake parts are built with
`step_size = GRID_SIZE` — and gives every part of index `i ≥ 1` exactly the
position and direction its predecessor `i - 1` held immediately before the
call. -/
theorem snake_move_follows_leader (s : Snake) (hd : SnakePart) (rest : List SnakePart)
    (dt : ℚ) (hparts : s.parts = hd :: rest) (hspeed : hd.speed ≠ 0)
    (hstep : hd.step_size = GRID_SIZE) :
    (s.move dt).parts.length = s.parts.length ∧
    (s.move dt).parts[0]? =
      some (movePart hd (get_velocity hd.direction hd.speed hd.step_size).1
        (get_velocity hd.direction hd.speed hd.step_size).2) ∧
    (∀ i, i + 1 < s.parts.length →
      ((s.move dt).parts[i + 1]?).map posdir = (s.parts[i]?).map posdir) := by
  cases s with
  | mk parts color offset speed time got_apple =>
    dsimp at hparts
    subst hparts
    refine ⟨?_, ?_, ?_⟩
    · simp [Snake.move, moveParts, shiftFollow_length]
    · simp [Snake.move, moveParts, updatePart, hspeed, hstep]
    · intro i h
      cases i with
      | zero =>
        cases rest with
        | nil => simp at h
        | cons q rest2 => simp [Snake.move, moveParts, shiftFollow, posdir]
      | succ j =>
        have hj : j + 1 < rest.length := by simpa using h
        have := shiftFollow_get_succ rest hd.bounds.x hd.bounds.y hd.direction j hj
        simpa [Snake.move, moveParts] using this

theorem snake_move_follows_leader_check :
    (initialSnake.move (1 / 10)).parts.length = 2 ∧
    ((initialSnake.move (1 / 10)).parts[1]?).map posdir = some (90, 180, 1) := by
  have h := snake_move_follows_leader initialSnake
    (mkSnakePart PartKind.head 90 180 (0, 165, 80) 20 1 (480, 360))
    [mkSnakePart PartKind.tail 80 180 (0, 165, 80) 20 1 (480, 360)]
    (1 / 10) (by decide) (by decide) (by decide)
  refine ⟨by rw [h.1]; decide, ?_⟩
  have h2 := h.2.2 0 (by decide)
  rw [h2]; decide

/-- C6: one call to `Snake.grow` lengthens the part list by exactly one,
inserting immediately after the head a new body segment carrying the head's
pre-move position and direction, then advances only the head; every
previously existing non-head part is untouched. -/
theorem snake_grow_inserts_after_head (s : Snake) (hd : SnakePart)
    (rest : List SnakePart) (dt : ℚ) (hparts : s.parts = hd :: rest)
    (hspeed : hd.speed ≠ 0) :
    (s.grow dt).parts.length = s.parts.length + 1 ∧
    (s.grow dt).parts = updatePart hd dt
      :: mkSnakePart PartKind.body hd.bounds.x hd.bounds.y s.color hd.speed
        hd.direction s.offset :: rest ∧
    posdir (mkSnakePart PartKind.body hd.bounds.x hd.bounds.y s.color hd.speed
        hd.direction s.offset) = posdir hd ∧
    updatePart hd dt = movePart hd (get_velocity hd.direction hd.speed GRID_SIZE).1
      (get_velocity hd.direction hd.speed GRID_SIZE).2 ∧
    List.drop 2 (s.grow dt).parts = rest := by
  cases s with
  | mk parts color offset speed time got_apple =>
    dsimp at hparts
    subst hparts
    refine ⟨?_, ?_, ?_, ?_, ?_⟩
    · simp [Snake.grow]
    · simp [Snake.grow]
    · simp [mkSnakePart, posdir]
    · simp [updatePart, hspeed]
    · simp [Snake.grow]

theorem snake_grow_inserts_after_head_check :
    (initialSnake.grow (1 / 10)).parts.length = 3 ∧
    ((initialSnake.grow (1 / 10)).parts[1]?).map posdir = some (90, 180, 1) ∧
    ((initialSnake.grow (1 / 10)).parts[2]?).map posdir = some (80, 180, 1) := by
  have h := snake_grow_inserts_after_head initialSnake
    (mkSnakePart PartKind.head 90 180 (0, 165, 80) 20 1 (480, 360))
    [mkSnakePart PartKind.tail 80 180 (0, 165, 80) 20 1 (480, 360)]
    (1 / 10) (by decide) (by decide)
  refine ⟨by rw [h.1]; decide, ?_, ?_⟩ <;> rw [h.2.1] <;> decide

/-- C2: `check_collision` is true exactly when the head's box leaves the
playfield `[0, width] × [0, height]` or overlaps the box of a part of index
`≥ 1` (the head is never tested against itself), and it is false on the
freshly constructed, in-bounds snake of `SnakeGame.__init__`. -/
theorem snake_check_collision_spec (s : Snake) (hd : SnakePart)
    (rest : List SnakePart) (hparts : s.parts = hd :: rest) :
    (s.check_collision = true ↔
      (hd.left < 0 ∨ hd.right > s.offset.1 ∨ hd.top < 0 ∨ hd.bottom > s.offset.2 ∨
        ∃ p ∈ rest, collideRect hd.bounds p.bounds = true)) ∧
    initialSnake.check_collision = false := by
  refine ⟨?_, by decide⟩
  cases s with
  | mk parts color offset speed time got_apple =>
    dsimp at hparts
    subst hparts
    show (Snake.check_collision ⟨hd :: rest, color, offset, speed, time, got_apple⟩) = true ↔ _
    rw [Snake.check_collision]
    dsimp only
    split_ifs with h
    · simp only [true_iff]
      tauto
    · push_neg at h
      rw [List.any_eq_true]
      constructor
      · intro he
        tauto
      · intro he
        rcases he with h1 | h1 | h1 | h1 | h1
        · exact absurd h1 (not_lt.mpr h.1)
        · exact absurd h1 (not_lt.mpr h.2.1)
        · exact absurd h1 (not_lt.mpr h.2.2.1)
        · exact absurd h1 (not_lt.mpr h.2.2.2)
        · exact h1

theorem snake_check_collision_spec_check :
    initialSnake.check_collision = false ∧
    ¬ (initialSnake.check_collision = true) := by
  have h := snake_check_collision_spec initialSnake
    (mkSnakePart PartKind.head 90 180 (0, 165, 80) 20 1 (480, 360))
    [mkSnakePart PartKind.tail 80 180 (0, 165, 80) 20 1 (480, 360)]
    (by decide)
  refine ⟨h.2, ?_⟩
  rw [h.1]
  decide

/-- C3: `Snake.update(dt)` steps on the fixed cadence `1 / speed` rather
than every call: when the accumulated time has not exceeded the cadence, no
part moves and only the accumulator grows by `dt`; when it has, exactly one
step happens — `grow` consuming the `got_apple` flag if it is set, `move`
otherwise — and the accumulator resets to 0. -/
theorem snake_update_cadence (s : Snake) (dt : ℚ) (hspeed : 0 < headSpeed s) :
    (¬ (s.time > 1 / (headSpeed s : ℚ)) →
      (s.update dt).parts = s.parts ∧ (s.update dt).time = s.time + dt ∧
        (s.update dt).got_apple = s.got_apple) ∧
    (s.time > 1 / (headSpeed s : ℚ) →
      (s.update dt).time = 0 ∧
      (s.got_apple = true →
        (s.update dt).parts = (s.grow dt).parts ∧ (s.update dt).got_apple = false) ∧
      (s.got_apple = false →
        (s.update dt).parts = (s.move dt).parts ∧ (s.update dt).got_apple = false)) := by
  constructor
  · intro h
    rw [Snake.update, if_neg h]
    exact ⟨rfl, rfl, rfl⟩
  · intro h
    rw [Snake.update, if_pos h]
    refine ⟨?_, fun ha => ?_, fun ha => ?_⟩
    · cases hb : s.got_apple
      · rw [if_neg (by decide)]
      · rw [if_pos rfl]
    · rw [if_pos ha]
      exact ⟨rfl, rfl⟩
    · rw [if_neg (by simp [ha])]
      exact ⟨rfl, ha⟩

theorem snake_update_cadence_check :
    (0 < headSpeed initialSnake ∧ ¬ (initialSnake.time > 1 / (headSpeed initialSnake : ℚ))
      ∧ (initialSnake.update (1 / 10)).parts = initialSnake.parts) ∧
    (({ initialSnake with time := 1 } : Snake).update (1 / 10)).parts
      = (({ initialSnake with time := 1 } : Snake).move (1 / 10)).parts ∧
    (({ initialSnake with time := 1, got_apple := true } : Snake).update (1 / 10)).parts
      = (({ initialSnake with time := 1, got_apple := true } : Snake).grow (1 / 10)).parts := by
  have hsp : 0 < headSpeed initialSnake := by decide
  have hc1 : ¬ (initialSnake.time > 1 / (headSpeed initialSnake : ℚ)) := by
    show ¬ ((0 : ℚ) > 1 / ((20 : Nat) : ℚ))
    norm_num
  have hc2 : (({ initialSnake with time := 1 } : Snake).time
      > 1 / (headSpeed ({ initialSnake with time := 1 } : Snake) : ℚ)) := by
    show (1 : ℚ) > 1 / ((20 : Nat) : ℚ)
    norm_num
  refine ⟨⟨hsp, hc1, ((snake_update_cadence initialSnake (1 / 10) hsp).1 hc1).1⟩, ?_, ?_⟩
  · exact (((snake_update_cadence { initialSnake with time := 1 } (1 / 10) hsp).2 hc2).2.2 rfl).1
  · exact (((snake_update_cadence { initialSnake with time := 1, got_apple := true }
      (1 / 10) hsp).2 hc2).2.1 rfl).1

/-- C8 (code bug): `Apple.respawn` draws `randrange(0, offset - width)` with
the default step 1, so a draw of 7 — valid for the 480×360 playfield — puts
the apple at `x = 7`, which is inside the playfield but not a multiple of
`GRID_SIZE`, contradicting the claimed grid alignment (the initial placement
in `SnakeGame.__init__` does pass `GRID_SIZE` as the `randrange` step). -/
theorem apple_respawn_not_grid_aligned :
    validDraw 7 ((mkApple 0 0 (WINDOW_WIDTH, WINDOW_HEIGHT)).offset.1
      - (mkApple 0 0 (WINDOW_WIDTH, WINDOW_HEIGHT)).bounds.w) ∧
    ((mkApple 0 0 (WINDOW_WIDTH, WINDOW_HEIGHT)).respawn 7 0).bounds.x = 7 ∧
    ((mkApple 0 0 (WINDOW_WIDTH, WINDOW_HEIGHT)).respawn 7 0).bounds.x % GRID_SIZE ≠ 0 ∧
    0 ≤ ((mkApple 0 0 (WINDOW_WIDTH, WINDOW_HEIGHT)).respawn 7 0).bounds.x ∧
    ((mkApple 0 0 (WINDOW_WIDTH, WINDOW_HEIGHT)).respawn 7 0).bounds.x
      + ((mkApple 0 0 (WINDOW_WIDTH, WINDOW_HEIGHT)).respawn 7 0).bounds.w
      ≤ WINDOW_WIDTH := by
  refine ⟨⟨by decide, by decide⟩, by decide, by decide, by decide, by decide⟩

/-- C9 (code bug): neither `SnakeGame.__init__` nor `Snake.__init__`
validates the configuration: with snake speed 0 the game constructs without
any diagnostic (the snake still has its head and tail), and the very first
`Snake.update` call inside the game loop hits the `ZeroDivisionError` of
`1 / self.head.speed`, modelled by `snakeUpdateChecked` returning `none`. -/
theorem speed_zero_passes_startup_then_crashes :
    (mkSnake SNAKE_INIT_X SNAKE_INIT_Y (0, 165, 80) (WINDOW_WIDTH, WINDOW_HEIGHT)
      0 1 SNAKE_INIT_LENGTH).parts.length = 2 ∧
    snakeUpdateChecked (mkSnake SNAKE_INIT_X SNAKE_INIT_Y (0, 165, 80)
      (WINDOW_WIDTH, WINDOW_HEIGHT) 0 1 SNAKE_INIT_LENGTH) (1 / 10) = none := by
  exact ⟨by decide, by decide⟩

/-- C10: per frame, `Game.handle_events` dispatches handlers for at most one
key-down event — the first queued key-down whose key is a bound direction
key — then clears the rest of the queue and stops, so every other queued
key press is discarded. -/
theorem handle_events_single_dispatch :
    (∀ es : List PgEvent, (handleEvents es).2.length ≤ 1) ∧
    (∀ es : List PgEvent, PgEvent.quit ∉ es →
      (handleEvents es).2 = ((es.find? isBoundKeydown).map eventKey).toList) := by
  constructor
  · intro es
    induction es with
    | nil => simp [handleEvents]
    | cons e es ih =>
      cases e with
      | quit => simp [handleEvents]
      | keydown k =>
        by_cases hb : k = K_LEFT ∨ k = K_RIGHT ∨ k = K_UP ∨ k = K_DOWN
        · simp [handleEvents, hb]
        · simpa [handleEvents, hb] using ih
      | other => simpa [handleEvents] using ih
  · intro es hq
    induction es with
    | nil => decide
    | cons e es ih =>
      have hq2 : PgEvent.quit ∉ es := fun h => hq (List.mem_cons_of_mem _ h)
      cases e with
      | quit => exact absurd (List.mem_cons_self _ _) hq
      | keydown k =>
        by_cases hb : k = K_LEFT ∨ k = K_RIGHT ∨ k = K_UP ∨ k = K_DOWN
        · simp [handleEvents, hb, List.find?, isBoundKeydown, eventKey]
        · simpa [handleEvents, hb, List.find?, isBoundKeydown] using ih hq2
      | other => simpa [handleEvents, List.find?, isBoundKeydown] using ih hq2

theorem handle_events_single_dispatch_check :
    (handleEvents [PgEvent.other, PgEvent.keydown 5, PgEvent.keydown K_UP,
      PgEvent.keydown K_LEFT]).2 = [K_UP] ∧
    (handleEvents [PgEvent.other, PgEvent.keydown 5, PgEvent.keydown K_UP,
      PgEvent.keydown K_LEFT]).2.length ≤ 1 := by
  constructor
  · have h := handle_events_single_dispatch.2
      [PgEvent.other, PgEvent.keydown 5, PgEvent.keydown K_UP, PgEvent.keydown K_LEFT]
      (by decide)
    rw [h]
    decide
  · exact handle_events_single_dispatch.1
      [PgEvent.other, PgEvent.keydown 5, PgEvent.keydown K_UP, PgEvent.keydown K_LEFT]
